import Mathlib

/-!
Verification of the query/introspection core of pgtyped
(packages/query/src/actions.ts): the identifier escaper, the MD5
credential hasher, the startup/authentication handshake, the type
prober (getTypeData), the explain validator (explainQuery), the
catalog aggregation (reduceTypeRows) and the metadata joins inside
getTypes.  Stateful protocol code is embedded as pure functions from
an explicit environment (the server's replies and the external
collaborators' outputs) to a result paired with a trace of channel
events.
-/

set_option autoImplicit false

/-- A structured parse error, source interface IParseError:
errorCode, optional hint, message, optional position. -/
structure IParseError where
  errorCode : String
  hint : Option String
  message : String
  position : Option String
  deriving Repr, DecidableEq

/-- One field descriptor from a row description, source interface TypeField.
tableOID and columnAttrNumber are integers (columnAttrNumber can be
zero or negative for fields that are not real table columns). -/
structure TypeField where
  name : String
  tableOID : Int
  columnAttrNumber : Int
  typeOID : Int
  typeSize : Int
  typeModifier : Int
  formatCode : Int
  deriving Repr, DecidableEq

/- ### Identifier escaper (escapeSqlIdentifier) -/

/-- Body of escapeSqlIdentifier: the regexp replace of every double
quote and every NUL character by two double-quote characters
(str.replace with the class of double quote and NUL, replacement two
double quotes). -/
def escapeBody : List Char → List Char
  | [] => []
  | c :: cs =>
    if c = '"' || c = '\x00' then '"' :: '"' :: escapeBody cs
    else c :: escapeBody cs

/-- escapeSqlIdentifier: wrap the replaced body in double quotes. -/
def escapeSqlIdentifier (s : String) : String :=
  "\"" ++ String.mk (escapeBody s.data) ++ "\""

/-- Modelled from the spec: the un-escaper described by the round-trip
sentence, which strips the outer double quotes and collapses every
doubled double-quote back to a single double-quote character.  This
function is not part of the source; it is the spec's inverse candidate. -/
def collapseQuotes : List Char → List Char
  | [] => []
  | [c] => [c]
  | c :: d :: cs =>
    if c = '"' && d = '"' then '"' :: collapseQuotes cs
    else c :: collapseQuotes (d :: cs)

/-- Modelled from the spec: strip the outer double quotes (first and
last character), then collapse doubled double quotes. -/
def unescapeSqlIdentifier (s : String) : String :=
  String.mk (collapseQuotes ((s.data.drop 1).dropLast))

/- ### MD5 credential hasher (generateHash) -/

/-- UTF-8 byte sequence of a string, as natural numbers. -/
def strBytes (s : String) : List Nat :=
  s.toUTF8.toList.map (fun b => b.toNat)

/-- generateHash, parameterised by the external MD5 primitive
(crypto.createHash applied to a byte sequence, digested as a
lowercase-hex string).  hash str is the hex MD5 of str's bytes; the
shadow is hash (password + username); the result feeds the shadow's
hex string followed by the raw salt bytes into MD5 again and prefixes
the literal "md5". -/
def generateHash (md5 : List Nat → String) (username password : String)
    (salt : List Nat) : String :=
  let hash := fun (str : String) => md5 (strBytes str)
  let shadow := hash (password ++ username)
  "md5" ++ md5 (strBytes shadow ++ salt)

/- ### Channel events

The AsyncQueue collaborator is observed through a trace: every send is
recorded with its message and payload, every reply with the set of
expected message kinds it awaits. -/

/-- A message sent on the channel, with the payload parts the claims
talk about. -/
inductive SendMsg where
  | startupMessage
  | passwordMessage (password : String)
  | saslInitialResponse (mechanism response : String)
  | saslResponse (response : String)
  | parse (name query : String)
  | describe (name : String)
  | closeMsg (targetName : String)
  | flush
  | sync
  | query (q : String)
  deriving Repr, DecidableEq

/-- The reply sets the source awaits (each constructor is one
queue.reply call site's set of expected message types). -/
inductive ReplyWait where
  | authReply
  | saslContinue
  | saslFinal
  | authenticationOk
  | readyForQuery
  | statusOrKeyDataOrReady
  | errorOrParseComplete
  | paramDescriptionOrNoData
  | rowDescriptionOrNoData
  | closeComplete
  | rowDescription
  | dataRowOrCommandComplete
  deriving Repr, DecidableEq

/-- One observable channel event. -/
inductive Ev where
  | send (m : SendMsg)
  | await (r : ReplyWait)
  deriving Repr, DecidableEq

/- ### Type prober (getTypeData) -/

/-- The field-coded payload of a server errorResponse: the source
reads fields R, H, M and P (H and P may be absent). -/
structure ErrorFields where
  R : String
  H : Option String
  M : String
  P : Option String
  deriving Repr, DecidableEq

/-- The raw type data union: either params and fields, or a parse
error (source type TypeData). -/
inductive TypeData where
  | ok (params : List Int) (fields : List TypeField)
  | err (e : IParseError)
  deriving Repr, DecidableEq

/-- Environment for one getTypeData run: the server's replies.
parseReply carries the error fields when the reply to the
parse/describe/close/flush batch was an errorResponse, none when it
was parseComplete.  paramsReply and fieldsReply are none when the
corresponding reply was noData. -/
structure ProbeEnv where
  parseReply : Option ErrorFields
  paramsReply : Option (List Int)
  fieldsReply : Option (List TypeField)
  deriving Repr, DecidableEq

/-- getTypeData: send parse, describe, close, flush under the
md5-derived statement name; await errorResponse-or-parseComplete; send
sync; on error return the structured parse error, otherwise await the
parameter description, the row description and closeComplete, treating
noData as the empty list.  md5hex is the external MD5 hex digest used
for the statement name. -/
def getTypeData (md5hex : String → String) (query : String)
    (env : ProbeEnv) : TypeData × List Ev :=
  let uniqueName := md5hex query
  let tr0 : List Ev :=
    [Ev.send (SendMsg.parse uniqueName query),
     Ev.send (SendMsg.describe uniqueName),
     Ev.send (SendMsg.closeMsg uniqueName),
     Ev.send SendMsg.flush,
     Ev.await ReplyWait.errorOrParseComplete,
     Ev.send SendMsg.sync]
  match env.parseReply with
  | some errorFields =>
    (TypeData.err
      { errorCode := errorFields.R, hint := errorFields.H,
        message := errorFields.M, position := errorFields.P }, tr0)
  | none =>
    let params := env.paramsReply.getD []
    let fields := env.fieldsReply.getD []
    (TypeData.ok params fields,
     tr0 ++ [Ev.await ReplyWait.paramDescriptionOrNoData,
             Ev.await ReplyWait.rowDescriptionOrNoData,
             Ev.await ReplyWait.closeComplete])

/- ### Simple query runner and explain validator -/

/-- Trace of one runQuery call: send the query message, await the row
description, then one dataRow-or-commandComplete await per data row
plus the final commandComplete. -/
def runQueryTrace (q : String) (rows : List (List String)) : List Ev :=
  [Ev.send (SendMsg.query q), Ev.await ReplyWait.rowDescription] ++
  List.replicate (rows.length + 1) (Ev.await ReplyWait.dataRowOrCommandComplete)

/-- Environment for one explainQuery run.  parseReply is as in
ProbeEnv for the second parse of the query.  runQueryResult is the
outcome of the runQuery call on the explain statement: rows on
success, the exception message when the channel raised.  When it
raised, thrownTrace is whatever events runQuery performed after its
initial send before the exception surfaced (server-determined). -/
structure ExplainEnv where
  parseReply : Option ErrorFields
  runQueryResult : Except String (List (List String))
  thrownTrace : List Ev
  deriving Repr

/-- Result of explainQuery: the explain plan lines (first column of
each returned row, absent when a row was empty) or a parse error. -/
inductive ExplainResult where
  | ok (lines : List (Option String))
  | err (e : IParseError)
  deriving Repr, DecidableEq

/-- explainQuery: passthrough when typeData is already an error;
otherwise parse again under the same statement name, flush, await
errorResponse-or-parseComplete; on parse error return it; otherwise
run explain execute with one null literal per parameter (no list when
there are none) and return the first column of each plan row; any
exception from the run is caught and normalised to errorCode _ERROR
with the exception's message; in all of these cases a finally block
sends close, flush and sync and awaits closeComplete before
returning. -/
def explainQuery (md5hex : String → String) (query : String)
    (typeData : TypeData) (env : ExplainEnv) : ExplainResult × List Ev :=
  match typeData with
  | TypeData.err e => (ExplainResult.err e, [])
  | TypeData.ok params _fields =>
    let uniqueName := md5hex query
    let tr0 : List Ev :=
      [Ev.send (SendMsg.parse uniqueName query),
       Ev.send SendMsg.flush,
       Ev.await ReplyWait.errorOrParseComplete]
    let cleanup : List Ev :=
      [Ev.send (SendMsg.closeMsg uniqueName),
       Ev.send SendMsg.flush,
       Ev.send SendMsg.sync,
       Ev.await ReplyWait.closeComplete]
    match env.parseReply with
    | some errorFields =>
      (ExplainResult.err
        { errorCode := errorFields.R, hint := errorFields.H,
          message := errorFields.M, position := errorFields.P },
       tr0 ++ cleanup)
    | none =>
      let nullParams := List.replicate params.length "null"
      let explainSql :=
        "explain execute " ++ escapeSqlIdentifier uniqueName ++
        (if nullParams.length = 0 then ""
         else " (" ++ String.intercalate ", " nullParams ++ ")") ++ ";"
      match env.runQueryResult with
      | Except.ok rows =>
        (ExplainResult.ok (rows.map List.head?),
         tr0 ++ runQueryTrace explainSql rows ++ cleanup)
      | Except.error msg =>
        (ExplainResult.err
          { errorCode := "_ERROR", hint := none,
            message := msg, position := none },
         tr0 ++ (Ev.send (SendMsg.query explainSql) :: env.thrownTrace) ++ cleanup)

/- ### Startup / authentication handshake -/

/-- The connection options startup reads: user, database name and the
optional password (host, port and ssl only concern the transport
collaborator). -/
structure StartupOptions where
  user : String
  dbName : String
  password : Option String
  deriving Repr, DecidableEq

/-- The server's reply to the startup message: readyForQuery (the
trxStatus branch, no auth), cleartext password request, MD5 request
with its salt, or SASL request with its mechanism list.  The
SASLMechanisms field is optional in the wire message, hence the
Option. -/
inductive AuthReply where
  | readyForQuery
  | cleartextPassword
  | md5Password (salt : List Nat)
  | sasl (mechanisms : Option (List String))
  deriving Repr, DecidableEq

/-- JavaScript falsiness of the optional password: absent or the
empty string (the source tests not options.password). -/
def passwordFalsy : Option String → Bool
  | none => true
  | some s => s = ""

/-- The source's mechanism test:
result.SASLMechanisms?.indexOf(SCRAM-SHA-256) === -1.  When the list
is absent the optional chain yields undefined, and undefined === -1 is
false, so only a present list lacking SCRAM-SHA-256 makes this true. -/
def saslUnsupported : Option (List String) → Bool
  | none => false
  | some l => !(l.contains "SCRAM-SHA-256")

/-- Environment for one startup run: the auth reply and the outputs of
the external SASL helper and server along the SASL path.
finalCheckError is some message when checkServerFinalMessage throws
(signature mismatch); finalSASLData is the SASLData field of the
authenticationSASLFinal reply when present; drainCount is how many
parameterStatus/backendKeyData messages precede readyForQuery. -/
structure StartupEnv where
  authReply : AuthReply
  initialSASLResponse : String
  saslContinueResponse : String
  finalSASLData : Option String
  finalCheckError : Option String
  drainCount : Nat
  deriving Repr, DecidableEq

/-- Terminal outcome of startup: normal return, or the catch block's
log-and-process.exit path with the thrown message. -/
inductive StartupOutcome where
  | ok
  | fatal (msg : String)
  deriving Repr, DecidableEq

/-- Trace tail shared by the cleartext and MD5 branches: send the
(possibly hashed) password, await authenticationOk, await
readyForQuery. -/
def passwordTail (password : String) : List Ev :=
  [Ev.send (SendMsg.passwordMessage password),
   Ev.await ReplyWait.authenticationOk,
   Ev.await ReplyWait.readyForQuery]

/-- startup: send the startup message and await the auth request.  On
readyForQuery return.  Otherwise (the source performs this check once,
before distinguishing the mechanisms) a falsy password throws
password-required.  The SASL branch requires the mechanism test to
pass, then exchanges initial response, continue response, final
message, authenticationOk and the drain loop, then verifies the
server signature (a throw there, like every throw, is caught and
turned into the fatal outcome).  The MD5 branch hashes the password
with the salt; cleartext and MD5 then share the password send tail. -/
def startup (md5 : List Nat → String) (options : StartupOptions)
    (env : StartupEnv) : StartupOutcome × List Ev :=
  let tr0 : List Ev := [Ev.send SendMsg.startupMessage, Ev.await ReplyWait.authReply]
  match env.authReply with
  | AuthReply.readyForQuery => (StartupOutcome.ok, tr0)
  | AuthReply.sasl mechs =>
    if passwordFalsy options.password then
      (StartupOutcome.fatal "password required for hash auth", tr0)
    else if saslUnsupported mechs then
      (StartupOutcome.fatal "SASL: Only mechanism SCRAM-SHA-256 is currently supported", tr0)
    else
      let tr1 := tr0 ++
        [Ev.send (SendMsg.saslInitialResponse "SCRAM-SHA-256" env.initialSASLResponse),
         Ev.await ReplyWait.saslContinue,
         Ev.send (SendMsg.saslResponse env.saslContinueResponse),
         Ev.await ReplyWait.saslFinal,
         Ev.await ReplyWait.authenticationOk] ++
        List.replicate (env.drainCount + 1) (Ev.await ReplyWait.statusOrKeyDataOrReady)
      match env.finalSASLData with
      | some _ =>
        match env.finalCheckError with
        | some msg => (StartupOutcome.fatal msg, tr1)
        | none => (StartupOutcome.ok, tr1)
      | none => (StartupOutcome.fatal "SASL: No final SASL data returned", tr1)
  | AuthReply.md5Password salt =>
    if passwordFalsy options.password then
      (StartupOutcome.fatal "password required for hash auth", tr0)
    else
      let hashed := generateHash md5 options.user (options.password.getD "") salt
      (StartupOutcome.ok, tr0 ++ passwordTail hashed)
  | AuthReply.cleartextPassword =>
    if passwordFalsy options.password then
      (StartupOutcome.fatal "password required for hash auth", tr0)
    else
      (StartupOutcome.ok, tr0 ++ passwordTail (options.password.getD ""))

/- ### Catalog aggregation (reduceTypeRows) -/

/-- Modelled from the spec: MappableType (from type.ts, not under
src/) is a variant over a scalar named by a plain string, an enum with
a name and an ordered label list, and an array with a name wrapping an
element type; isEnum recognises the enum variant. -/
inductive MappableType where
  | scalar (name : String)
  | enum (name : String) (enumValues : List String)
  | array (name : String) (elementType : MappableType)
  deriving Repr, DecidableEq

/-- Modelled from the spec: isEnum from type.ts recognises the Enum
variant of MappableType. -/
def isEnum : MappableType → Bool
  | MappableType.enum _ _ => true
  | _ => false

/-- The enumValues merge in the enum pass: an existing enum
contributes its labels, anything else contributes none (the source's
isEnum conditional). -/
def enumValuesOf (t : MappableType) : List String :=
  match t with
  | MappableType.enum _ vs => vs
  | _ => []

/-- Modelled from the spec: DatabaseTypeKind.Enum (from type.ts, not
under src/) is the pg_type typtype letter for enum types. -/
def enumTypeKind : String := "e"

/-- The pg_type typcategory letter for array types (source enum
TypeCategory, member ARRAY). -/
def arrayTypeCategory : String := "A"

/-- One row of the types catalog query (source interface TypeRow);
all values arrive as strings from the query result, typeCategory and
elementTypeOid possibly absent. -/
structure TypeRow where
  oid : String
  typeName : String
  typeKind : String
  enumLabel : String
  typeCategory : Option String
  elementTypeOid : Option String
  deriving Repr, DecidableEq

/-- Record-object update: set key to value, leaving other keys. -/
def recSet {α : Type} (m : String → Option α) (k : String) (v : α) :
    String → Option α :=
  fun k' => if k' = k then some v else m k'

/-- JavaScript truthiness of the optional elementTypeOid string. -/
def oidTruthy : Option String → Bool
  | none => false
  | some s => !(s = "")

/-- One step of the first reduce of reduceTypeRows: the oid's entry
becomes an enum whose name is the current row's typeName and whose
labels are the labels accumulated so far (empty unless the entry is
already an enum) followed by the row's enumLabel. -/
def enumStep (typeMap : String → Option MappableType) (r : TypeRow) :
    String → Option MappableType :=
  let typ := (typeMap r.oid).getD (MappableType.scalar r.typeName)
  recSet typeMap r.oid
    (MappableType.enum r.typeName (enumValuesOf typ ++ [r.enumLabel]))

/-- The first reduce of reduceTypeRows, over the rows whose typeKind
is the enum kind. -/
def enumTypesOf (typeRows : List TypeRow) : String → Option MappableType :=
  (typeRows.filter (fun r => r.typeKind = enumTypeKind)).foldl enumStep
    (fun _ => none)

/-- The value the second reduce of reduceTypeRows stores for one row:
an oid present in the enum map resolves to its enum; otherwise an
array-category row whose truthy elementTypeOid is in the enum map
resolves to an array wrapping that enum; otherwise the oid keeps its
existing entry or becomes a scalar named by the row's typeName. -/
def pass2Value (enumTypes : String → Option MappableType)
    (typeMap : String → Option MappableType) (r : TypeRow) : MappableType :=
  let typ := (typeMap r.oid).getD (MappableType.scalar r.typeName)
  match enumTypes r.oid with
  | some et => et
  | none =>
    if r.typeCategory = some arrayTypeCategory ∧ oidTruthy r.elementTypeOid then
      match r.elementTypeOid.bind enumTypes with
      | some elemT => MappableType.array r.typeName elemT
      | none => typ
    else typ

/-- One step of the second reduce: store the row's resolved value
under its oid. -/
def pass2Step (enumTypes : String → Option MappableType)
    (typeMap : String → Option MappableType) (r : TypeRow) :
    String → Option MappableType :=
  recSet typeMap r.oid (pass2Value enumTypes typeMap r)

/-- reduceTypeRows: the second reduce over all rows, against the enum
map produced by the first. -/
def reduceTypeRows (typeRows : List TypeRow) : String → Option MappableType :=
  typeRows.foldl (pass2Step (enumTypesOf typeRows)) (fun _ => none)

/-- The rows the first reduce accumulates for one oid: the enum-kind
rows whose oid is o, in row order. -/
def enumRowsFor (typeRows : List TypeRow) (o : String) : List TypeRow :=
  (typeRows.filter (fun r => r.typeKind = enumTypeKind)).filter
    (fun r => r.oid = o)

/- ### Column metadata lookups inside getComments and getTypes -/

/-- The filter at the top of getComments: keep the fields whose
columnAttrNumber is positive. -/
def commentLookupFields (fields : List TypeField) : List TypeField :=
  fields.filter (fun f => 0 < f.columnAttrNumber)

/-- One pg_description predicate built by getComments:
(objoid=t and objsubid=n). -/
def commentMatcher (f : TypeField) : String :=
  "(objoid=" ++ toString f.tableOID ++ " and objsubid=" ++
    toString f.columnAttrNumber ++ ")"

/-- The predicate list of the pg_description query (built over the
filtered fields only). -/
def commentMatchers (fields : List TypeField) : List String :=
  (commentLookupFields fields).map commentMatcher

/-- The (tableOID, columnAttrNumber) pairs the pg_description query
carries a predicate for. -/
def commentLookupPairs (fields : List TypeField) : List (Int × Int) :=
  (commentLookupFields fields).map (fun f => (f.tableOID, f.columnAttrNumber))

/-- The WHERE selection of the pg_description query; none when
getComments short-circuits on an empty filtered list. -/
def commentSelection (fields : List TypeField) : Option String :=
  if (commentLookupFields fields).length = 0 then none
  else some (String.intercalate " or " (commentMatchers fields))

/-- One pg_attribute predicate built inside getTypes:
(attrelid = t and attnum = n). -/
def attrMatcher (f : TypeField) : String :=
  "(attrelid = " ++ toString f.tableOID ++ " and attnum = " ++
    toString f.columnAttrNumber ++ ")"

/-- The predicate list of the pg_attribute query: built over all
fields, with no columnAttrNumber filter. -/
def attrMatchers (fields : List TypeField) : List String :=
  fields.map attrMatcher

/-- The (tableOID, columnAttrNumber) pairs the pg_attribute query
carries a predicate for. -/
def attrLookupPairs (fields : List TypeField) : List (Int × Int) :=
  fields.map (fun f => (f.tableOID, f.columnAttrNumber))

/-- The WHERE selection of the pg_attribute query; none models the
literal false used when the field list is empty. -/
def attrSelection (fields : List TypeField) : Option String :=
  if 0 < fields.length
  then some (String.intercalate " or " (attrMatchers fields))
  else none

/- ### returnTypes assembly inside getTypes -/

/-- The composite lookup key: tableOID, a colon, columnAttrNumber. -/
def getAttid (f : TypeField) : String :=
  toString f.tableOID ++ ":" ++ toString f.columnAttrNumber

/-- One row of the pg_attribute query result: the composite attid,
the column name and the attnotnull flag (all strings). -/
structure AttributeRow where
  attid : String
  attname : String
  attnotnull : String
  deriving Repr, DecidableEq

/-- The value stored per attid in the attribute map. -/
structure AttrInfo where
  columnName : String
  nullable : Bool
  deriving Repr, DecidableEq

/-- The attributeRows.reduce inside getTypes: key each row by its
attid; attnotnull equal to the literal t means not nullable. -/
def attrMapOf (rows : List AttributeRow) : String → Option AttrInfo :=
  rows.foldl
    (fun acc r => recSet acc r.attid { columnName := r.attname, nullable := r.attnotnull != "t" })
    (fun _ => none)

/-- One entry of getTypes's returnTypes.  columnName and nullable come
from spreading the attribute-map entry (absent when the key misses),
comment from the truthiness-guarded comment-map entry, returnName from
the field name, type from the catalog type map keyed by the stringified
typeOID. -/
structure ReturnTypeEntry where
  returnName : String
  columnName : Option String
  type : Option MappableType
  nullable : Option Bool
  comment : Option String
  deriving Repr, DecidableEq

/-- The fields.map building returnTypes inside getTypes. -/
def returnTypesOf (attrMap : String → Option AttrInfo)
    (commentMap : String → Option String)
    (typeMap : String → Option MappableType)
    (fields : List TypeField) : List ReturnTypeEntry :=
  fields.map (fun f =>
    { returnName := f.name
      columnName := (attrMap (getAttid f)).map AttrInfo.columnName
      type := typeMap (toString f.typeOID)
      nullable := (attrMap (getAttid f)).map AttrInfo.nullable
      comment :=
        match commentMap (getAttid f) with
        | some c => if c = "" then none else some c
        | none => none })

/-!
## Theorems
-/

/- ### C4: escape round-trip -/

theorem collapseQuotes_cons_ne (c : Char) (xs : List Char) (h : c ≠ '"') :
    collapseQuotes (c :: xs) = c :: collapseQuotes xs := by
  cases xs with
  | nil => rfl
  | cons d ds => simp [collapseQuotes, h]

theorem collapse_escapeBody : ∀ (cs : List Char), '\x00' ∉ cs →
    collapseQuotes (escapeBody cs) = cs
  | [], _ => rfl
  | c :: cs, h => by
    have hn : '\x00' ∉ cs := fun hx => h (List.mem_cons_of_mem _ hx)
    have hc0 : c ≠ '\x00' := fun he => h (he ▸ List.mem_cons_self _ _)
    by_cases hq : c = '"'
    · subst hq
      simp [escapeBody, collapseQuotes, collapse_escapeBody cs hn]
    · have hb : escapeBody (c :: cs) = c :: escapeBody cs := by
        simp [escapeBody, hq, hc0]
      rw [hb, collapseQuotes_cons_ne c _ hq, collapse_escapeBody cs hn]

theorem escape_data (s : String) :
    (escapeSqlIdentifier s).data = '"' :: (escapeBody s.data ++ ['"']) := by
  cases s with
  | mk l => simp [escapeSqlIdentifier, String.mk]

/-- C4 counterexample: on the one-character NUL string, un-escaping
the escaper's output yields a double-quote character, not the original
string, so the round-trip claim fails as stated. -/
theorem C4_counterexample :
    unescapeSqlIdentifier (escapeSqlIdentifier (String.mk ['\x00'])) ≠
      String.mk ['\x00'] := by
  decide

/-- C4 (amended): for every string with no NUL character, un-escaping
the output of escapeSqlIdentifier (strip the outer double quotes, then
collapse every doubled double-quote) reproduces the string exactly.
NUL is escaped to a doubled double-quote, so it un-escapes to a
double-quote character instead. -/
theorem C4_escape_roundtrip (s : String) (h : '\x00' ∉ s.data) :
    unescapeSqlIdentifier (escapeSqlIdentifier s) = s := by
  unfold unescapeSqlIdentifier
  rw [escape_data]
  simp only [List.drop_succ_cons, List.drop_zero, List.dropLast_concat]
  rw [collapse_escapeBody s.data h]

/-- C4 witness: the amended round-trip at a concrete NUL-free string
containing an embedded double quote. -/
theorem C4_escape_roundtrip_witness :
    unescapeSqlIdentifier (escapeSqlIdentifier (String.mk ['a', '"', 'b'])) =
      String.mk ['a', '"', 'b'] :=
  C4_escape_roundtrip (String.mk ['a', '"', 'b']) (by decide)

/- ### C7: MD5 credential hasher -/

/-- C7 (amended): generateHash equals the literal md5 prefix followed
by the hex MD5 of the hex MD5 of password concatenated with username,
followed by the raw salt bytes; it is deterministic and always starts
with the literal md5 prefix; but it depends on username and password
only through the concatenation password + username, so it does not
change between two (username, password) pairs with equal
concatenation. -/
theorem C7_generateHash (md5 : List Nat → String) (u p : String) (s : List Nat) :
    generateHash md5 u p s =
      "md5" ++ md5 (strBytes (md5 (strBytes (p ++ u))) ++ s) ∧
    (∃ rest, generateHash md5 u p s = "md5" ++ rest) ∧
    (∀ u' p', p ++ u = p' ++ u' →
      generateHash md5 u p s = generateHash md5 u' p' s) := by
  refine ⟨rfl, ⟨_, rfl⟩, ?_⟩
  intro u' p' h
  simp only [generateHash, h]

/-- C7 counterexample: the distinct credential pairs (user ab,
password c) and (user b, password ca) have equal concatenations
password + username, hence equal hashes under any MD5 primitive (shown
here at a concrete one), refuting the change-on-credential-change
clause. -/
theorem C7_counterexample :
    (("ab", "c") ≠ (("b" : String), ("ca" : String))) ∧
    generateHash (fun l => toString l) "ab" "c" [] =
      generateHash (fun l => toString l) "b" "ca" [] := by
  exact ⟨by decide, rfl⟩

/-- C7 witness: the concatenation-collision clause of the amended
theorem at the concrete colliding pairs. -/
theorem C7_generateHash_witness :
    generateHash (fun l => toString l) "ab" "c" [] =
      generateHash (fun l => toString l) "b" "ca" [] :=
  (C7_generateHash (fun l => toString l) "ab" "c" []).2.2 "b" "ca" (by decide)

/- ### C2: explainQuery cleanup on every exit path -/

/-- C2 (confirmed): whenever the input typeData is not already an
error, the trace of explainQuery ends with the cleanup sequence: send
close for the prepared statement, send flush, send sync, await
close-complete — on every exit path (parse-error return, successful
explain return, and the exception-normalization path), for every
environment. -/
theorem C2_explainQuery_cleanup (md5hex : String → String) (q : String)
    (ps : List Int) (fs : List TypeField) (env : ExplainEnv) :
    ∃ pre, (explainQuery md5hex q (TypeData.ok ps fs) env).2 =
      pre ++ [Ev.send (SendMsg.closeMsg (md5hex q)),
              Ev.send SendMsg.flush,
              Ev.send SendMsg.sync,
              Ev.await ReplyWait.closeComplete] := by
  rcases env with ⟨pr, rr, tt⟩
  cases pr <;> cases rr <;> exact ⟨_, rfl⟩

/- ### C3: getTypeData syncs once, right after the parse reply -/

/-- C3 (confirmed): for every environment, the event right after
getTypeData's await of errorResponse-or-parseComplete is the one and
only sync send of the run; and when the reply was an errorResponse,
getTypeData returns a ParseError built from the payload's R, H, M and
P fields, with no further channel events after that sync. -/
theorem C3_getTypeData_sync (md5hex : String → String) (q : String) :
    (∀ env : ProbeEnv,
      (getTypeData md5hex q env).2[4]? =
          some (Ev.await ReplyWait.errorOrParseComplete) ∧
      (getTypeData md5hex q env).2[5]? = some (Ev.send SendMsg.sync) ∧
      (getTypeData md5hex q env).2.count (Ev.send SendMsg.sync) = 1) ∧
    (∀ (ef : ErrorFields) (pr : Option (List Int))
        (fr : Option (List TypeField)),
      getTypeData md5hex q ⟨some ef, pr, fr⟩ =
        (TypeData.err ⟨ef.R, ef.H, ef.M, ef.P⟩,
         [Ev.send (SendMsg.parse (md5hex q) q),
          Ev.send (SendMsg.describe (md5hex q)),
          Ev.send (SendMsg.closeMsg (md5hex q)),
          Ev.send SendMsg.flush,
          Ev.await ReplyWait.errorOrParseComplete,
          Ev.send SendMsg.sync])) := by
  constructor
  · rintro ⟨pr, prr, fr⟩
    cases pr <;>
      simp [getTypeData, List.count_cons, List.count_append, List.count_nil]
  · intro ef pr fr
    rfl

/- ### C6: exceptions during the explain run are normalised -/

/-- C6 (confirmed): when the parse for the explain step succeeded and
the explain run raised an exception, explainQuery returns a ParseError
with the fixed errorCode _ERROR, the exception's message, and no hint
and no position, instead of propagating the exception. -/
theorem C6_explain_exception (md5hex : String → String) (q : String)
    (ps : List Int) (fs : List TypeField) (m : String) (tt : List Ev) :
    (explainQuery md5hex q (TypeData.ok ps fs)
        ⟨none, Except.error m, tt⟩).1 =
      ExplainResult.err ⟨"_ERROR", none, m, none⟩ :=
  rfl

/- ### C8: SASL mechanism check -/

/-- C8 counterexample: when the server requests SASL with no
SASLMechanisms list at all (so SCRAM-SHA-256 is certainly not
advertised), startup does not fail: it sends the SASL initial response
anyway and, with cooperative remaining replies, completes with the ok
outcome — because the optional-chained indexOf comparison with -1 is
false on an absent list. -/
theorem C8_counterexample :
    (startup (fun _ => "") ⟨"u", "db", some "pw"⟩
        ⟨AuthReply.sasl none, "n,,n=*,r=abc", "resp", some "final", none, 0⟩).1 =
      StartupOutcome.ok ∧
    Ev.send (SendMsg.saslInitialResponse "SCRAM-SHA-256" "n,,n=*,r=abc") ∈
      (startup (fun _ => "") ⟨"u", "db", some "pw"⟩
        ⟨AuthReply.sasl none, "n,,n=*,r=abc", "resp", some "final", none, 0⟩).2 := by
  constructor
  · rfl
  · decide

/-- C8 (amended): with a truthy password, whenever the server's SASL
request advertises a present mechanism list that does not contain
SCRAM-SHA-256 (including the empty list), startup fails fatally with
the unsupported-mechanism error and its trace is just the startup send
and the auth await — no SASL initial response is sent.  When the
mechanism list is absent, however, the check is bypassed and the
initial response is sent. -/
theorem C8_saslMechanisms (md5 : List Nat → String)
    (options : StartupOptions) (env : StartupEnv)
    (hpw : passwordFalsy options.password = false) :
    (∀ mechs, env.authReply = AuthReply.sasl (some mechs) →
      "SCRAM-SHA-256" ∉ mechs →
      startup md5 options env =
        (StartupOutcome.fatal "SASL: Only mechanism SCRAM-SHA-256 is currently supported",
         [Ev.send SendMsg.startupMessage, Ev.await ReplyWait.authReply])) ∧
    (env.authReply = AuthReply.sasl none →
      Ev.send (SendMsg.saslInitialResponse "SCRAM-SHA-256" env.initialSASLResponse) ∈
        (startup md5 options env).2) := by
  constructor
  · intro mechs ha hmem
    have hu : saslUnsupported (some mechs) = true := by
      simp [saslUnsupported, hmem]
    simp [startup, ha, hpw, hu]
  · intro ha
    have hu : saslUnsupported (none : Option (List String)) = false := rfl
    simp [startup, ha, hpw, hu]
    rcases env.finalSASLData with _ | d
    · simp
    · rcases env.finalCheckError with _ | m <;> simp

/-- C8 witness: the amended theorem at a concrete environment whose
SASL request advertises only PLAIN. -/
theorem C8_saslMechanisms_witness :
    startup (fun _ => "") ⟨"u", "db", some "pw"⟩
        ⟨AuthReply.sasl (some ["PLAIN"]), "i", "r", none, none, 0⟩ =
      (StartupOutcome.fatal "SASL: Only mechanism SCRAM-SHA-256 is currently supported",
       [Ev.send SendMsg.startupMessage, Ev.await ReplyWait.authReply]) :=
  (C8_saslMechanisms (fun _ => "") ⟨"u", "db", some "pw"⟩
      ⟨AuthReply.sasl (some ["PLAIN"]), "i", "r", none, none, 0⟩ rfl).1
    ["PLAIN"] rfl (by decide)

/- ### C9: empty-string password -/

/-- C9 (confirmed): an empty-string password behaves exactly as an
absent password: startup produces the same outcome and trace in every
environment with the same auth reply, and whenever the server requests
any authentication (cleartext, MD5 or SASL) it fails fatally with the
password-required error, because the check tests string falsiness. -/
theorem C9_emptyPassword (md5 : List Nat → String) (user dbName : String)
    (env : StartupEnv) (h : env.authReply ≠ AuthReply.readyForQuery) :
    startup md5 ⟨user, dbName, some ""⟩ env =
      startup md5 ⟨user, dbName, none⟩ env ∧
    (startup md5 ⟨user, dbName, some ""⟩ env).1 =
      StartupOutcome.fatal "password required for hash auth" := by
  rcases henv : env.authReply with _ | _ | salt | mechs
  · exact absurd henv h
  · exact ⟨by simp [startup, henv, passwordFalsy],
           by simp [startup, henv, passwordFalsy]⟩
  · exact ⟨by simp [startup, henv, passwordFalsy],
           by simp [startup, henv, passwordFalsy]⟩
  · exact ⟨by simp [startup, henv, passwordFalsy],
           by simp [startup, henv, passwordFalsy]⟩

/-- C9 witness: the theorem at a concrete MD5-requesting
environment. -/
theorem C9_emptyPassword_witness :
    startup (fun _ => "") ⟨"u", "db", some ""⟩
        ⟨AuthReply.md5Password [1, 2, 3, 4], "i", "r", none, none, 0⟩ =
      startup (fun _ => "") ⟨"u", "db", none⟩
        ⟨AuthReply.md5Password [1, 2, 3, 4], "i", "r", none, none, 0⟩ ∧
    (startup (fun _ => "") ⟨"u", "db", some ""⟩
        ⟨AuthReply.md5Password [1, 2, 3, 4], "i", "r", none, none, 0⟩).1 =
      StartupOutcome.fatal "password required for hash auth" :=
  C9_emptyPassword (fun _ => "") "u" "db"
    ⟨AuthReply.md5Password [1, 2, 3, 4], "i", "r", none, none, 0⟩ (by decide)

/- ### C1: which lookups exclude non-column fields -/

/-- C1 counterexample: a field whose columnAttrNumber is 0 still
contributes its (tableOID, columnAttrNumber) predicate pair to the
pg_attribute query built inside getTypes, so it is not excluded from
the attribute-nullability lookup. -/
theorem C1_counterexample :
    (⟨"expr", 1, 0, 25, 4, -1, 0⟩ : TypeField).columnAttrNumber ≤ 0 ∧
    ¬ (((1 : Int), (0 : Int)) ∉
        attrLookupPairs [⟨"expr", 1, 0, 25, 4, -1, 0⟩]) := by
  exact ⟨by decide, by decide⟩

/-- C1 (amended): a field with columnAttrNumber at most 0 is excluded
from the pg_description query built by getComments — its pair appears
in no comment-lookup predicate — but the pg_attribute query built
inside getTypes carries a predicate for every field, this one
included. -/
theorem C1_lookupPairs (fields : List TypeField) (f : TypeField)
    (hmem : f ∈ fields) (hle : f.columnAttrNumber ≤ 0) :
    (f.tableOID, f.columnAttrNumber) ∉ commentLookupPairs fields ∧
    (f.tableOID, f.columnAttrNumber) ∈ attrLookupPairs fields := by
  constructor
  · intro hc
    rcases List.mem_map.1 hc with ⟨g, hg, hpair⟩
    have hgpos : 0 < g.columnAttrNumber :=
      by simpa using (List.mem_filter.1 hg).2
    have : g.columnAttrNumber = f.columnAttrNumber :=
      congrArg Prod.snd hpair
    omega
  · exact List.mem_map.2 ⟨f, hmem, rfl⟩

/-- C1 witness: the amended theorem at a two-field list with one
computed-expression field and one real column. -/
theorem C1_lookupPairs_witness :
    (((2 : Int), (-1 : Int)) ∉
      commentLookupPairs
        [⟨"expr", 2, -1, 25, 4, -1, 0⟩, ⟨"id", 2, 1, 23, 4, -1, 0⟩]) ∧
    (((2 : Int), (-1 : Int)) ∈
      attrLookupPairs
        [⟨"expr", 2, -1, 25, 4, -1, 0⟩, ⟨"id", 2, 1, 23, 4, -1, 0⟩]) :=
  C1_lookupPairs
    [⟨"expr", 2, -1, 25, 4, -1, 0⟩, ⟨"id", 2, 1, 23, 4, -1, 0⟩]
    ⟨"expr", 2, -1, 25, 4, -1, 0⟩ (by decide) (by decide)

/- ### C10: returnTypes entries for fields with no attribute row -/

theorem attrFold_ne (k : String) : ∀ (rows : List AttributeRow)
    (acc : String → Option AttrInfo), (∀ r ∈ rows, r.attid ≠ k) →
    (rows.foldl
      (fun acc r =>
        recSet acc r.attid { columnName := r.attname, nullable := r.attnotnull != "t" })
      acc) k = acc k
  | [], _, _ => rfl
  | r :: rows, acc, h => by
    have h1 : r.attid ≠ k := h r (List.mem_cons_self _ _)
    have h2 : ∀ x ∈ rows, x.attid ≠ k :=
      fun x hx => h x (List.mem_cons_of_mem _ hx)
    rw [List.foldl_cons, attrFold_ne k rows _ h2]
    simp [recSet, Ne.symm h1]

theorem attrMapOf_none (rows : List AttributeRow) (k : String)
    (h : ∀ r ∈ rows, r.attid ≠ k) : attrMapOf rows k = none := by
  unfold attrMapOf
  exact attrFold_ne k rows _ h

/-- C10 (confirmed): a probed field whose composite attid key matches
no row of the pg_attribute result gets a returnTypes entry with no
columnName and no nullable (both absent), while still carrying
returnName from the field's name and type from the catalog type map
keyed by the field's typeOID. -/
theorem C10_returnTypes (attrRows : List AttributeRow)
    (commentMap : String → Option String)
    (typeMap : String → Option MappableType)
    (fields : List TypeField) (i : Nat) (f : TypeField)
    (hf : fields[i]? = some f)
    (hmiss : ∀ r ∈ attrRows, r.attid ≠ getAttid f) :
    ∃ e, (returnTypesOf (attrMapOf attrRows) commentMap typeMap fields)[i]? =
        some e ∧
      e.columnName = none ∧ e.nullable = none ∧
      e.returnName = f.name ∧ e.type = typeMap (toString f.typeOID) := by
  have hnone := attrMapOf_none attrRows (getAttid f) hmiss
  refine ⟨{ returnName := f.name
            columnName := (attrMapOf attrRows (getAttid f)).map AttrInfo.columnName
            type := typeMap (toString f.typeOID)
            nullable := (attrMapOf attrRows (getAttid f)).map AttrInfo.nullable
            comment :=
              match commentMap (getAttid f) with
              | some c => if c = "" then none else some c
              | none => none }, ?_, ?_, ?_, rfl, rfl⟩
  · unfold returnTypesOf
    rw [List.getElem?_map, hf, Option.map_some']
  · simp [hnone]
  · simp [hnone]

/-- C10 witness: the theorem at a one-field list whose computed field
misses the single attribute row. -/
theorem C10_returnTypes_witness :
    ∃ e, (returnTypesOf
        (attrMapOf [⟨"1:1", "id", "t"⟩])
        (fun _ => none)
        (fun k => if k = "25" then some (MappableType.scalar "text") else none)
        [⟨"expr", 0, 0, 25, 4, -1, 0⟩])[0]? = some e ∧
      e.columnName = none ∧ e.nullable = none ∧
      e.returnName = "expr" ∧
      e.type = (fun k => if k = "25" then some (MappableType.scalar "text") else none)
        (toString (⟨"expr", 0, 0, 25, 4, -1, 0⟩ : TypeField).typeOID) :=
  C10_returnTypes [⟨"1:1", "id", "t"⟩] (fun _ => none)
    (fun k => if k = "25" then some (MappableType.scalar "text") else none)
    [⟨"expr", 0, 0, 25, 4, -1, 0⟩] 0 ⟨"expr", 0, 0, 25, 4, -1, 0⟩
    (by decide) (by decide)

/- ### C5: catalog aggregation -/

/-- The labels an accumulator entry contributes to the enum merge:
an enum entry contributes its labels, anything else none. -/
def curLabels : Option MappableType → List String
  | some t => enumValuesOf t
  | none => []

theorem enumValuesOf_getD (ot : Option MappableType) (n : String) :
    enumValuesOf (ot.getD (MappableType.scalar n)) = curLabels ot := by
  cases ot <;> rfl

/-- A fold of the enum pass leaves untouched the entry of an oid none
of the rows carries. -/
theorem enumFold_no_oid (o : String) : ∀ (rs : List TypeRow)
    (acc : String → Option MappableType),
    rs.filter (fun r => r.oid = o) = [] →
    (rs.foldl enumStep acc) o = acc o
  | [], _, _ => rfl
  | r :: rs, acc, h => by
    have hro : ¬ (r.oid = o) := by
      intro he
      simp [List.filter_cons, he] at h
    have hrest : rs.filter (fun r => r.oid = o) = [] := by
      simpa [List.filter_cons, hro] using h
    rw [List.foldl_cons, enumFold_no_oid o rs _ hrest]
    simp [enumStep, recSet, Ne.symm hro]

/-- A fold of the enum pass over rows carrying oid o produces an enum
entry for o whose labels are those already accumulated followed by the
carrying rows' labels in row order. -/
theorem enumFold_oid (o : String) : ∀ (rs : List TypeRow)
    (acc : String → Option MappableType),
    rs.filter (fun r => r.oid = o) ≠ [] →
    ∃ nm, (rs.foldl enumStep acc) o =
      some (MappableType.enum nm
        (curLabels (acc o) ++
          (rs.filter (fun r => r.oid = o)).map TypeRow.enumLabel))
  | [], _, h => absurd rfl h
  | r :: rs, acc, h => by
    by_cases hro : r.oid = o
    · have hstep : (enumStep acc r) o =
          some (MappableType.enum r.typeName
            (curLabels (acc o) ++ [r.enumLabel])) := by
        simp [enumStep, recSet, hro, enumValuesOf_getD]
      by_cases hrest : rs.filter (fun r => r.oid = o) = []
      · refine ⟨r.typeName, ?_⟩
        rw [List.foldl_cons, enumFold_no_oid o rs _ hrest, hstep]
        simp [List.filter_cons, hro, hrest]
      · obtain ⟨nm, hnm⟩ := enumFold_oid o rs (enumStep acc r) hrest
        refine ⟨nm, ?_⟩
        rw [List.foldl_cons, hnm, hstep]
        simp [curLabels, enumValuesOf, List.filter_cons, hro]
    · have hne : rs.filter (fun r => r.oid = o) ≠ [] := by
        intro he
        apply h
        simp [List.filter_cons, hro, he]
      obtain ⟨nm, hnm⟩ := enumFold_oid o rs (enumStep acc r) hne
      refine ⟨nm, ?_⟩
      rw [List.foldl_cons, hnm]
      have hacc : (enumStep acc r) o = acc o := by
        simp [enumStep, recSet, Ne.symm hro]
      rw [hacc]
      simp [List.filter_cons, hro]

/-- The enum map has no entry for an oid with no enum-kind rows. -/
theorem enumTypesOf_none (rows : List TypeRow) (o : String)
    (h : enumRowsFor rows o = []) : enumTypesOf rows o = none := by
  unfold enumTypesOf
  exact enumFold_no_oid o _ _ h

/-- The enum map's entry for an oid with enum-kind rows: an enum whose
labels are exactly those rows' labels in row order. -/
theorem enumTypesOf_eq (rows : List TypeRow) (o : String)
    (h : enumRowsFor rows o ≠ []) :
    ∃ nm, enumTypesOf rows o =
      some (MappableType.enum nm ((enumRowsFor rows o).map TypeRow.enumLabel)) := by
  obtain ⟨nm, hnm⟩ :=
    enumFold_oid o (rows.filter (fun r => r.typeKind = enumTypeKind))
      (fun _ => none) h
  exact ⟨nm, by simpa [enumTypesOf, enumRowsFor, curLabels] using hnm⟩

/-- A fold of the second pass leaves untouched the entry of an oid
none of the rows carries. -/
theorem pass2Fold_no_oid (E : String → Option MappableType) (o : String) :
    ∀ (rs : List TypeRow) (acc : String → Option MappableType),
    rs.filter (fun r => r.oid = o) = [] →
    (rs.foldl (pass2Step E) acc) o = acc o
  | [], _, _ => rfl
  | r :: rs, acc, h => by
    have hro : ¬ (r.oid = o) := by
      intro he
      simp [List.filter_cons, he] at h
    have hrest : rs.filter (fun r => r.oid = o) = [] := by
      simpa [List.filter_cons, hro] using h
    rw [List.foldl_cons, pass2Fold_no_oid E o rs _ hrest]
    simp [pass2Step, recSet, Ne.symm hro]

/-- When the enum map resolves o, every second-pass row carrying o
writes that resolution, so any fold over rows containing such a row
ends with it. -/
theorem pass2Fold_mem (E : String → Option MappableType) (o : String)
    (v : MappableType) (hv : E o = some v) : ∀ (rs : List TypeRow)
    (acc : String → Option MappableType),
    rs.filter (fun r => r.oid = o) ≠ [] →
    (rs.foldl (pass2Step E) acc) o = some v
  | [], _, h => absurd rfl h
  | r :: rs, acc, h => by
    by_cases hro : r.oid = o
    · by_cases hrest : rs.filter (fun r => r.oid = o) = []
      · rw [List.foldl_cons, pass2Fold_no_oid E o rs _ hrest]
        simp [pass2Step, pass2Value, recSet, hro, hv]
      · rw [List.foldl_cons]
        exact pass2Fold_mem E o v hv rs _ hrest
    · have hne : rs.filter (fun r => r.oid = o) ≠ [] := by
        intro he
        apply h
        simp [List.filter_cons, hro, he]
      rw [List.foldl_cons]
      exact pass2Fold_mem E o v hv rs _ hne

/-- When the enum map does not resolve o and exactly one row carries
o, the second pass stores that row's resolution: the array wrapping
the element's enum resolution when the row is array-category with a
truthy elementTypeOid resolving in the enum map, otherwise the
existing entry or a scalar named by the row's typeName. -/
theorem pass2Fold_single (E : String → Option MappableType) (o : String) :
    ∀ (rs : List TypeRow) (acc : String → Option MappableType) (r : TypeRow),
    rs.filter (fun x => x.oid = o) = [r] → E o = none →
    (rs.foldl (pass2Step E) acc) o = some
      (if r.typeCategory = some arrayTypeCategory ∧ oidTruthy r.elementTypeOid then
        match r.elementTypeOid.bind E with
        | some elemT => MappableType.array r.typeName elemT
        | none => (acc o).getD (MappableType.scalar r.typeName)
      else (acc o).getD (MappableType.scalar r.typeName))
  | [], _, r, h, _ => by simp at h
  | x :: rs, acc, r, h, hE => by
    by_cases hxo : x.oid = o
    · have hcons : x :: rs.filter (fun y => y.oid = o) = [r] := by
        simpa [List.filter_cons, hxo] using h
      have hxr : x = r := (List.cons_eq_cons.1 hcons).1
      have hrest : rs.filter (fun y => y.oid = o) = [] :=
        (List.cons_eq_cons.1 hcons).2
      subst hxr
      rw [List.foldl_cons, pass2Fold_no_oid E o rs _ hrest]
      have hEx : E x.oid = none := by rw [hxo, hE]
      simp [pass2Step, pass2Value, recSet, hxo, hEx, hE]
    · have hrest : rs.filter (fun y => y.oid = o) = [r] := by
        simpa [List.filter_cons, hxo] using h
      rw [List.foldl_cons,
          pass2Fold_single E o rs (pass2Step E acc x) r hrest hE]
      have hacc : (pass2Step E acc x) o = acc o := by
        simp [pass2Step, recSet, Ne.symm hxo]
      rw [hacc]

/-- An oid whose only carrying row is not enum-kind has no enum-kind
rows at all. -/
theorem enumRowsFor_nil_of_single (rows : List TypeRow) (o : String)
    (r : TypeRow) (hfilter : rows.filter (fun x => x.oid = o) = [r])
    (hkind : r.typeKind ≠ enumTypeKind) : enumRowsFor rows o = [] := by
  rw [List.eq_nil_iff_forall_not_mem]
  intro x hx
  have hx1 := List.mem_filter.1 hx
  have hx2 := List.mem_filter.1 hx1.1
  have hxmem : x ∈ rows.filter (fun y => y.oid = o) :=
    List.mem_filter.2 ⟨hx2.1, hx1.2⟩
  rw [hfilter] at hxmem
  have hxr : x = r := by simpa using hxmem
  subst hxr
  exact hkind (by simpa using hx2.2)

/-- C5 (confirmed): reduceTypeRows maps each oid to exactly one
MappableType: an oid with enum-kind rows maps to an enum whose label
sequence lists each of those rows' enumLabel exactly once in row
order; an oid whose single row is non-enum and not an
array-of-resolved-enum maps to a scalar named by the row's type name;
and an oid whose single non-enum row has the array type-category and a
truthy elementTypeOid that the enum pass resolved maps to an array
wrapping that resolution. -/
theorem C5_reduceTypeRows (rows : List TypeRow) (o : String) :
    (enumRowsFor rows o ≠ [] →
      ∃ nm, reduceTypeRows rows o =
        some (MappableType.enum nm
          ((enumRowsFor rows o).map TypeRow.enumLabel))) ∧
    (∀ r, rows.filter (fun x => x.oid = o) = [r] →
      r.typeKind ≠ enumTypeKind →
      ¬(r.typeCategory = some arrayTypeCategory ∧
          oidTruthy r.elementTypeOid = true ∧
          (r.elementTypeOid.bind (enumTypesOf rows)).isSome = true) →
      reduceTypeRows rows o = some (MappableType.scalar r.typeName)) ∧
    (∀ r eo et, rows.filter (fun x => x.oid = o) = [r] →
      r.typeKind ≠ enumTypeKind →
      r.typeCategory = some arrayTypeCategory →
      r.elementTypeOid = some eo → eo ≠ "" →
      enumTypesOf rows eo = some et →
      reduceTypeRows rows o = some (MappableType.array r.typeName et)) := by
  refine ⟨?_, ?_, ?_⟩
  · intro h
    obtain ⟨nm, hE⟩ := enumTypesOf_eq rows o h
    obtain ⟨r, hr⟩ := List.exists_mem_of_ne_nil _ h
    have hr1 := List.mem_filter.1 hr
    have hr2 := List.mem_filter.1 hr1.1
    have hne : rows.filter (fun x => x.oid = o) ≠ [] := by
      intro he
      have hmem : r ∈ rows.filter (fun x => x.oid = o) :=
        List.mem_filter.2 ⟨hr2.1, hr1.2⟩
      rw [he] at hmem
      simp at hmem
    exact ⟨nm, pass2Fold_mem (enumTypesOf rows) o _ hE rows _ hne⟩
  · intro r hfilter hkind hnotarr
    have hE := enumTypesOf_none rows o
      (enumRowsFor_nil_of_single rows o r hfilter hkind)
    have hres := pass2Fold_single (enumTypesOf rows) o rows
      (fun _ => none) r hfilter hE
    unfold reduceTypeRows
    rw [hres]
    by_cases hc : r.typeCategory = some arrayTypeCategory ∧
        oidTruthy r.elementTypeOid
    · have hbind : r.elementTypeOid.bind (enumTypesOf rows) = none := by
        cases hb : r.elementTypeOid.bind (enumTypesOf rows) with
        | none => rfl
        | some t => exact absurd ⟨hc.1, hc.2, by rw [hb]; rfl⟩ hnotarr
      simp [hc, hbind]
    · simp [hc]
  · intro r eo et hfilter hkind hcat helem heo het
    have hE := enumTypesOf_none rows o
      (enumRowsFor_nil_of_single rows o r hfilter hkind)
    have hres := pass2Fold_single (enumTypesOf rows) o rows
      (fun _ => none) r hfilter hE
    unfold reduceTypeRows
    rw [hres]
    have hcond : r.typeCategory = some arrayTypeCategory ∧
        oidTruthy r.elementTypeOid := ⟨hcat, by simp [helem, oidTruthy, heo]⟩
    have hbind : r.elementTypeOid.bind (enumTypesOf rows) = some et := by
      rw [helem]
      simpa using het
    simp [hcond, hbind]

/-- The catalog example from the testable properties: three enum rows
for oid 100 with labels a, b, c in row order, one scalar row for oid
200, and one array row for oid 300 whose element type oid is 100. -/
def sampleTypeRows : List TypeRow :=
  [⟨"100", "color", "e", "a", some "E", some "0"⟩,
   ⟨"100", "color", "e", "b", some "E", some "0"⟩,
   ⟨"100", "color", "e", "c", some "E", some "0"⟩,
   ⟨"200", "int4", "b", "", some "N", some "0"⟩,
   ⟨"300", "_color", "b", "", some "A", some "100"⟩]

/-- C5 witness: the three cases of the theorem at the concrete catalog
example. -/
theorem C5_reduceTypeRows_witness :
    (∃ nm, reduceTypeRows sampleTypeRows "100" =
      some (MappableType.enum nm ["a", "b", "c"])) ∧
    reduceTypeRows sampleTypeRows "200" = some (MappableType.scalar "int4") ∧
    reduceTypeRows sampleTypeRows "300" =
      some (MappableType.array "_color"
        (MappableType.enum "color" ["a", "b", "c"])) :=
  ⟨(C5_reduceTypeRows sampleTypeRows "100").1 (by decide),
   (C5_reduceTypeRows sampleTypeRows "200").2.1
     ⟨"200", "int4", "b", "", some "N", some "0"⟩
     (by decide) (by decide) (by decide),
   (C5_reduceTypeRows sampleTypeRows "300").2.2
     ⟨"300", "_color", "b", "", some "A", some "100"⟩ "100"
     (MappableType.enum "color" ["a", "b", "c"])
     (by decide) (by decide) rfl rfl (by decide) (by decide)⟩
